import Mathlib

/-!
# Verification of the bulk-download staging / single-use retrieval core

Shallow embedding of `src/main.go` (package `main`): the archive builder and
single-use artifact registry implemented by `handleFileUpload` and
`handleDownload`.

Modelling conventions:
* The registry `tempFileStore : map[string]string` and the scratch filesystem
  are association lists with Go-map semantics (unique keys; insert
  overwrites, delete removes).
* A staged zip container is modelled by its ordered member list
  `(entry name, entry bytes)`; bytes are `List Nat`.
* Each fallible I/O step of the Go code (`os.CreateTemp`, `file.Open`,
  `zipWriter.Create`, `io.Copy`, `zipWriter.Close`, `Seek`, `os.Open`) gets
  an explicit failure flag in an environment record, so every error branch
  of the source is reachable in the model.
* `multipart.FileHeader.Size` (the declared entry size, an `int64` byte
  count produced by the multipart parser, hence non-negative) is a `Nat`,
  carried independently of the actual entry bytes: the handler never
  compares the two, and the spec calls declared sizes advisory.
* Go string slicing in the name derivation is byte-level; the inputs are
  treated at character granularity, which agrees with it on ASCII names.
-/

namespace BulkDownload

/-- Go-map lookup on an association list: first binding of the key. -/
def lookupA {α : Type} (m : List (String × α)) (k : String) : Option α :=
  match m with
  | [] => none
  | (k', v) :: rest => if k' = k then some v else lookupA rest k

/-- Go-map `delete`: remove every binding of the key. -/
def mapErase {α : Type} (m : List (String × α)) (k : String) : List (String × α) :=
  m.filter (fun p => p.1 ≠ k)

/-- Go-map assignment `m[k] = v`: bind `k` to `v`, dropping any old binding. -/
def mapInsert {α : Type} (m : List (String × α)) (k : String) (v : α) :
    List (String × α) :=
  (k, v) :: mapErase m k

/-- One member of a zip archive: entry name and entry bytes. -/
abbrev ZipMember := String × List Nat

/-- The contents of one staged zip container, in write order. -/
abbrev ZipData := List ZipMember

/-- Shared mutable state of the process: the registry map
`tempFileStore` (artifact name → temp-file path, `src/main.go` line 20) and
the scratch filesystem (temp-file path → zip contents). -/
structure ServerState where
  tempFileStore : List (String × String)
  fs : List (String × ZipData)
deriving DecidableEq, Repr

/-- One uploaded multipart file as `handleFileUpload` sees it: display name
and declared size from the part header, the actual bytes of the part, and
failure flags for the three per-entry I/O steps of the loop at
`src/main.go` lines 125-157 (`file.Open`, `zipWriter.Create`, `io.Copy`). -/
structure UploadFile where
  filename : String
  size : Nat
  content : List Nat
  openFails : Bool
  createFails : Bool
  copyFails : Bool
deriving DecidableEq, Repr

/-- A wall-clock instant at second granularity, as consumed by
`time.Now().Format("20060102_150405")`. -/
structure Timestamp where
  year : Nat
  month : Nat
  day : Nat
  hour : Nat
  minute : Nat
  second : Nat
deriving DecidableEq, Repr

/-- Per-call environment of `handleFileUpload`: failure flags for
`os.CreateTemp`, `zipWriter.Close` and `tempFile.Seek`, the fresh path
`os.CreateTemp` would allocate, and the wall-clock time `time.Now()`. -/
structure UploadEnv where
  createTempFails : Bool
  closeFails : Bool
  seekFails : Bool
  tempPath : String
  now : Timestamp
deriving DecidableEq, Repr

/-- Results of `handleFileUpload`, one constructor per `return` of the Go
function (transport-level form-parse failure aside, which precedes the
entries and touches no state). -/
inductive UploadResult where
  | noFiles
  | capacityExceeded
  | tempCreateError
  | entryOpenError (name : String)
  | zipCreateError (name : String)
  | copyError (name : String)
  | finalizeError
  | seekError
  | success (zipName : String)
deriving DecidableEq, Repr

/-- The 100 MB ceiling hard-coded at `src/main.go` line 109:
`totalSize > 100*1024*1024`. -/
def sizeLimit : Nat := 100 * 1024 * 1024

/-- Sum of the declared entry sizes (`src/main.go` lines 104-107). -/
def sumSizes (files : List UploadFile) : Nat :=
  files.foldl (fun acc f => acc + f.size) 0

/-- Zero-pad a number to two digits, as the Go layout components
`01 02 15 04 05` do. -/
def pad2 (n : Nat) : String :=
  if n < 10 then "0" ++ toString n else toString n

/-- Zero-pad a number to four digits, as the Go layout component `2006`
does for calendar years. -/
def pad4 (n : Nat) : String :=
  if n < 10 then "000" ++ toString n
  else if n < 100 then "00" ++ toString n
  else if n < 1000 then "0" ++ toString n
  else toString n

/-- `time.Now().Format("20060102_150405")` (`src/main.go` line 173). -/
def formatTimestamp (t : Timestamp) : String :=
  pad4 t.year ++ pad2 t.month ++ pad2 t.day ++ "_" ++
    pad2 t.hour ++ pad2 t.minute ++ pad2 t.second

/-- Scan a reversed character list for Go's `filepath.Ext`: walk from the
end of the name, stop at a path separator, return from the last dot on. -/
def goExtRev : List Char → List Char → Option (List Char)
  | [], _ => none
  | c :: rest, acc =>
    if c = '/' then none
    else if c = '.' then some (c :: acc)
    else goExtRev rest (c :: acc)

/-- Go's `filepath.Ext`: the suffix of the name from its final dot (after
the last separator); empty when there is no dot. -/
def goExt (s : String) : String :=
  match goExtRev s.data.reverse [] with
  | some l => String.mk l
  | none => ""

/-- `fileName[:len(fileName)-len(filepath.Ext(fileName))]`
(`src/main.go` line 177): the display name with its final extension cut. -/
def stripLastExt (s : String) : String :=
  String.mk (s.data.take (s.data.length - (goExt s).data.length))

/-- The download name derived at `src/main.go` lines 172-182: base name
(single file's name without extension, else the literal `archive`), an
underscore, the formatted timestamp, and `.zip`. -/
def genZipFilename (files : List UploadFile) (now : Timestamp) : String :=
  let base :=
    match files with
    | [f] => stripLastExt f.filename
    | _ => "archive"
  base ++ "_" ++ formatTimestamp now ++ ".zip"

/-- The per-entry loop at `src/main.go` lines 125-157: open the part,
create the zip entry, copy the bytes; abort on the first failing step,
returning the error and the members fully written so far (the partial
scratch contents). -/
def addEntries : List UploadFile → ZipData →
    Except (UploadResult × ZipData) ZipData
  | [], acc => .ok acc
  | f :: rest, acc =>
    if f.openFails then .error (.entryOpenError f.filename, acc)
    else if f.createFails then .error (.zipCreateError f.filename, acc)
    else if f.copyFails then .error (.copyError f.filename, acc)
    else addEntries rest (acc ++ [(f.filename, f.content)])

/-- `handleFileUpload` (`src/main.go` lines 88-211) from the point where
the entry list is known. Faithful branch order: empty-list check, declared
total-size pre-check, `os.CreateTemp`, the per-entry loop, `zipWriter.Close`,
`Seek`, name derivation, registry insert under the mutex. No error branch
removes the temp file: the only cleanup on those paths is closing writers,
so the scratch container stays in `fs` with its partial contents. -/
def handleFileUpload (st : ServerState) (files : List UploadFile)
    (env : UploadEnv) : UploadResult × ServerState :=
  if files.length = 0 then (.noFiles, st)
  else if sumSizes files > sizeLimit then (.capacityExceeded, st)
  else if env.createTempFails then (.tempCreateError, st)
  else
    match addEntries files [] with
    | .error (e, partialMembers) =>
      (e, { st with fs := mapInsert st.fs env.tempPath partialMembers })
    | .ok members =>
      if env.closeFails then
        (.finalizeError, { st with fs := mapInsert st.fs env.tempPath members })
      else if env.seekFails then
        (.seekError, { st with fs := mapInsert st.fs env.tempPath members })
      else
        (.success (genZipFilename files env.now),
         { tempFileStore :=
             mapInsert st.tempFileStore (genZipFilename files env.now) env.tempPath,
           fs := mapInsert st.fs env.tempPath members })

/-- Per-call environment of `handleDownload`: whether `os.Open` fails for a
transient reason even though the path exists (a missing path always makes
it fail). -/
structure DownloadEnv where
  openFails : Bool
deriving DecidableEq, Repr

/-- Results of `handleDownload`: name absent from the registry, open
failure after the record was claimed (HTTP 500, the spec's
`StorageUnavailable`), or the streamed archive. -/
inductive DownloadResult where
  | notFound
  | storageError
  | served (content : ZipData)
deriving DecidableEq, Repr

/-- `handleDownload` (`src/main.go` lines 214-253), run to completion
including its deferred cleanup. Under the store mutex: look the name up
and, when present, delete it (lines 219-229) — one atomic step. Then open
the path: on failure return HTTP 500 with no cleanup registered (the
`defer` at lines 241-245 is only reached after a successful open, so the
physical file is not removed on this branch). On success the file is
streamed and the deferred `os.Remove` deletes it after the stream drains. -/
def handleDownload (st : ServerState) (filename : String)
    (env : DownloadEnv) : DownloadResult × ServerState :=
  match lookupA st.tempFileStore filename with
  | none => (.notFound, st)
  | some tempPath =>
    let store' := mapErase st.tempFileStore filename
    match lookupA st.fs tempPath with
    | none => (.storageError, { st with tempFileStore := store' })
    | some content =>
      if env.openFails then (.storageError, { st with tempFileStore := store' })
      else (.served content,
            { tempFileStore := store', fs := mapErase st.fs tempPath })

/-- Two claims of the same name racing (spec §8.2): the mutex at
`src/main.go` lines 219-229 makes each claim's lookup-and-remove a single
atomic step, so every interleaving of the two handlers is equivalent to
running them in one of the two orders; `firstA` picks the order. -/
def runTwoClaims (st : ServerState) (name : String)
    (envA envB : DownloadEnv) (firstA : Bool) :
    (DownloadResult × DownloadResult) × ServerState :=
  if firstA then
    let ra := handleDownload st name envA
    let rb := handleDownload ra.2 name envB
    ((ra.1, rb.1), rb.2)
  else
    let rb := handleDownload st name envB
    let ra := handleDownload rb.2 name envA
    ((ra.1, rb.1), ra.2)

/-- The build-time I/O failures named by spec §4.1: entry open, zip entry
creation, byte copy, finalize. -/
def isBuildIOError : UploadResult → Bool
  | .entryOpenError _ => true
  | .zipCreateError _ => true
  | .copyError _ => true
  | .finalizeError => true
  | _ => false

/-! ## Association-list (Go map) lemmas -/

theorem lookupA_mapErase_self {α : Type} (m : List (String × α)) (k : String) :
    lookupA (mapErase m k) k = none := by
  induction m with
  | nil => rfl
  | cons p rest ih =>
    by_cases hp : p.1 = k
    · simpa [mapErase, List.filter_cons, hp] using ih
    · simpa [mapErase, List.filter_cons, hp, lookupA] using ih

theorem lookupA_mapInsert_self {α : Type} (m : List (String × α)) (k : String)
    (v : α) : lookupA (mapInsert m k v) k = some v := by
  simp [mapInsert, lookupA]

/-! ## Builder-loop lemmas -/

/-- Every error `addEntries` can return is one of the three per-entry I/O
errors of the loop at `src/main.go` lines 125-157. -/
theorem addEntries_error_shape : ∀ (files : List UploadFile) (acc d : ZipData)
    (e : UploadResult), addEntries files acc = .error (e, d) →
    ∃ n, e = .entryOpenError n ∨ e = .zipCreateError n ∨ e = .copyError n := by
  intro files
  induction files with
  | nil => intro acc d e h; simp [addEntries] at h
  | cons f rest ih =>
    intro acc d e h
    by_cases h1 : f.openFails
    · simp [addEntries, h1] at h
      exact ⟨f.filename, Or.inl h.1.symm⟩
    · by_cases h2 : f.createFails
      · simp [addEntries, h1, h2] at h
        exact ⟨f.filename, Or.inr (Or.inl h.1.symm)⟩
      · by_cases h3 : f.copyFails
        · simp [addEntries, h1, h2, h3] at h
          exact ⟨f.filename, Or.inr (Or.inr h.1.symm)⟩
        · simp only [addEntries, h1, h2, h3, if_false, Bool.false_eq_true] at h
          exact ih _ d e h

/-- When no per-entry I/O step fails, the loop writes exactly one member
per entry, in input order, with the display name and bytes unchanged. -/
theorem addEntries_ok (files : List UploadFile) (acc : ZipData)
    (hok : ∀ f ∈ files,
      f.openFails = false ∧ f.createFails = false ∧ f.copyFails = false) :
    addEntries files acc =
      .ok (acc ++ files.map fun f => (f.filename, f.content)) := by
  induction files generalizing acc with
  | nil => simp [addEntries]
  | cons f rest ih =>
    obtain ⟨h1, h2, h3⟩ := hok f (by simp)
    have hrest : ∀ g ∈ rest,
        g.openFails = false ∧ g.createFails = false ∧ g.copyFails = false :=
      fun g hg => hok g (by simp [hg])
    simp [addEntries, h1, h2, h3, ih (acc ++ [(f.filename, f.content)]) hrest]

/-! ## Download-handler lemmas -/

/-- A claim on a name absent from the registry returns `NotFound` and
leaves the whole state untouched (`src/main.go` lines 220-225). -/
theorem claim_miss (st : ServerState) (name : String) (env : DownloadEnv)
    (h : lookupA st.tempFileStore name = none) :
    handleDownload st name env = (.notFound, st) := by
  simp [handleDownload, h]

/-- A claim on a registered name removes the record from the registry and
never reports `NotFound`, whatever the subsequent open does
(`src/main.go` lines 219-237). -/
theorem claim_hit (st : ServerState) (name p : String) (env : DownloadEnv)
    (h : lookupA st.tempFileStore name = some p) :
    ((handleDownload st name env).2).tempFileStore =
      mapErase st.tempFileStore name ∧
    (handleDownload st name env).1 ≠ .notFound := by
  simp only [handleDownload, h]
  rcases h2 : lookupA st.fs p with _ | c
  · simp
  · by_cases h3 : env.openFails <;> simp [h3]

/-! ## Upload-handler lemmas -/

/-- When the pre-checks pass and no I/O step fails, `handleFileUpload`
stages the archive, publishes the derived name, and leaves the member list
equal to the inputs in order. -/
theorem upload_success_eq (st : ServerState) (files : List UploadFile)
    (env : UploadEnv)
    (hne : files ≠ [])
    (hsz : ¬ sumSizes files > sizeLimit)
    (hct : env.createTempFails = false)
    (hcl : env.closeFails = false)
    (hsk : env.seekFails = false)
    (hok : ∀ f ∈ files,
      f.openFails = false ∧ f.createFails = false ∧ f.copyFails = false) :
    handleFileUpload st files env =
      (.success (genZipFilename files env.now),
       ⟨mapInsert st.tempFileStore (genZipFilename files env.now) env.tempPath,
        mapInsert st.fs env.tempPath
          (files.map fun f => (f.filename, f.content))⟩) := by
  have hlen : ¬ files.length = 0 := by cases files <;> simp_all
  simp [handleFileUpload, hlen, hsz, hct, hcl, hsk, addEntries_ok files [] hok]

/-- Inversion: a successful build's published name is exactly
`genZipFilename`, and the registry afterwards binds it to the fresh
scratch path. -/
theorem upload_success_name (st : ServerState) (files : List UploadFile)
    (env : UploadEnv) (name : String)
    (h : (handleFileUpload st files env).1 = .success name) :
    name = genZipFilename files env.now ∧
    lookupA ((handleFileUpload st files env).2).tempFileStore name =
      some env.tempPath := by
  unfold handleFileUpload at h ⊢
  split at h
  next => exact absurd h (by simp)
  next hlen =>
  split at h
  next => exact absurd h (by simp)
  next hsz =>
  split at h
  next => exact absurd h (by simp)
  next hct =>
  split at h
  next e partialMembers heq =>
    obtain ⟨n, hn⟩ := addEntries_error_shape files [] partialMembers e heq
    rcases hn with hn | hn | hn <;> simp [hn] at h
  next members heq =>
  split at h
  next => exact absurd h (by simp)
  next hcl =>
  split at h
  next => exact absurd h (by simp)
  next hsk =>
  simp at h
  subst h
  refine ⟨rfl, ?_⟩
  simp [hlen, hsz, hct, heq, hcl, hsk, lookupA_mapInsert_self]

/-! ## Claim theorems -/

/-- C10: a build request with an empty entry sequence fails with the
no-files error before any scratch container is allocated and before any
registry record is created, leaving the registry and the filesystem
unchanged (`src/main.go` lines 96-99). -/
theorem c10_empty_upload_rejected (st : ServerState) (env : UploadEnv) :
    handleFileUpload st [] env = (.noFiles, st) := by
  simp [handleFileUpload]

/-- C7: when the sum of declared entry sizes exceeds the 100 MB limit the
build fails with `CapacityExceeded` before any byte is written and before
the scratch container is allocated (the state is unchanged); when the sum
is at most the limit the pre-check passes, i.e. the build never reports
`CapacityExceeded` (`src/main.go` lines 103-118). -/
theorem c7_capacity_precheck (st : ServerState) (files : List UploadFile)
    (env : UploadEnv) :
    (sumSizes files > sizeLimit →
      handleFileUpload st files env = (.capacityExceeded, st))
    ∧ (sumSizes files ≤ sizeLimit →
      (handleFileUpload st files env).1 ≠ .capacityExceeded) := by
  constructor
  · intro h
    have hlen : ¬ files.length = 0 := by
      cases files with
      | nil => simp [sumSizes] at h
      | cons _ _ => simp
    simp [handleFileUpload, hlen, h]
  · intro h
    unfold handleFileUpload
    split
    next => simp
    next =>
    split
    next hgt => exact absurd hgt (by omega)
    next =>
    split
    next => simp
    next =>
    split
    next e partialMembers heq =>
      obtain ⟨n, hn⟩ := addEntries_error_shape files [] partialMembers e heq
      rcases hn with hn | hn | hn <;> simp [hn]
    next members heq =>
    split
    next => simp
    next =>
    split
    next => simp
    next => simp

/-- C7 witness: a 100 MB + 1 declared total is rejected with the state
untouched; a 12-byte declared total is never rejected for capacity. -/
theorem c7_witness :
    handleFileUpload ⟨[], []⟩ [⟨"huge.bin", 104857601, [], false, false, false⟩]
        ⟨false, false, false, "/tmp/a", ⟨2025, 1, 1, 0, 0, 0⟩⟩ =
      (.capacityExceeded, ⟨[], []⟩)
    ∧ (handleFileUpload ⟨[], []⟩ [⟨"ok.bin", 12, [], false, false, false⟩]
        ⟨false, false, false, "/tmp/a", ⟨2025, 1, 1, 0, 0, 0⟩⟩).1 ≠
      .capacityExceeded :=
  ⟨(c7_capacity_precheck ⟨[], []⟩ [⟨"huge.bin", 104857601, [], false, false, false⟩]
      ⟨false, false, false, "/tmp/a", ⟨2025, 1, 1, 0, 0, 0⟩⟩).1 (by decide),
   (c7_capacity_precheck ⟨[], []⟩ [⟨"ok.bin", 12, [], false, false, false⟩]
      ⟨false, false, false, "/tmp/a", ⟨2025, 1, 1, 0, 0, 0⟩⟩).2 (by decide)⟩

/-- C6: a download of a name that was never published returns `NotFound`
with the state untouched, and two consecutive downloads of the same name
always leave the second with `NotFound`, whether the first claim's
physical read succeeded or failed — once claimed, a name is single-use
(`src/main.go` lines 219-229). -/
theorem c6_single_use (st : ServerState) (name : String) (env : DownloadEnv)
    (h : lookupA st.tempFileStore name = none) :
    handleDownload st name env = (.notFound, st)
    ∧ ∀ (st₂ : ServerState) (envA envB : DownloadEnv),
        (handleDownload (handleDownload st₂ name envA).2 name envB).1 =
          .notFound := by
  refine ⟨claim_miss st name env h, ?_⟩
  intro st₂ envA envB
  rcases h2 : lookupA st₂.tempFileStore name with _ | p
  · simp [claim_miss st₂ name envA h2, claim_miss st₂ name envB h2]
  · have hhit := claim_hit st₂ name p envA h2
    have hmiss : lookupA ((handleDownload st₂ name envA).2).tempFileStore name =
        none := by
      rw [hhit.1]; exact lookupA_mapErase_self _ _
    simp [claim_miss _ name envB hmiss]

/-- C6 witness: an unpublished name misses with no state change, and a
second download straight after a successful claim misses too. -/
theorem c6_witness :
    handleDownload ⟨[], []⟩ "ghost.zip" ⟨false⟩ = (.notFound, ⟨[], []⟩)
    ∧ (handleDownload
        (handleDownload ⟨[("a.zip", "/tmp/x")], [("/tmp/x", [("m", [1])])]⟩
          "a.zip" ⟨false⟩).2 "a.zip" ⟨false⟩).1 = .notFound := by
  have h := c6_single_use ⟨[], []⟩ "ghost.zip" ⟨false⟩ (by rfl)
  exact ⟨h.1, h.2 ⟨[("a.zip", "/tmp/x")], [("/tmp/x", [("m", [1])])]⟩ ⟨false⟩ ⟨false⟩⟩

/-- C8: the mutex makes each download's lookup-and-remove one atomic step,
so when two downloads of a registered name race, under either order of
their critical sections exactly one observes the record (its result is not
`NotFound`) and the other gets `NotFound`, and afterwards the name is gone
from the registry, so every subsequent claim also misses
(`src/main.go` lines 219-229). -/
theorem c8_claim_linearizable (st : ServerState) (name p : String)
    (envA envB : DownloadEnv) (b : Bool)
    (h : lookupA st.tempFileStore name = some p) :
    (((runTwoClaims st name envA envB b).1.1 ≠ .notFound ∧
      (runTwoClaims st name envA envB b).1.2 = .notFound) ∨
     ((runTwoClaims st name envA envB b).1.1 = .notFound ∧
      (runTwoClaims st name envA envB b).1.2 ≠ .notFound))
    ∧ lookupA ((runTwoClaims st name envA envB b).2).tempFileStore name =
        none := by
  cases b with
  | false =>
    have hB := claim_hit st name p envB h
    have hmiss : lookupA ((handleDownload st name envB).2).tempFileStore name =
        none := by
      rw [hB.1]; exact lookupA_mapErase_self _ _
    have hA := claim_miss ((handleDownload st name envB).2) name envA hmiss
    refine ⟨Or.inr ⟨?_, ?_⟩, ?_⟩
    · simp [runTwoClaims, hA]
    · simpa [runTwoClaims] using hB.2
    · simp [runTwoClaims, hA, hmiss]
  | true =>
    have hA := claim_hit st name p envA h
    have hmiss : lookupA ((handleDownload st name envA).2).tempFileStore name =
        none := by
      rw [hA.1]; exact lookupA_mapErase_self _ _
    have hB := claim_miss ((handleDownload st name envA).2) name envB hmiss
    refine ⟨Or.inl ⟨?_, ?_⟩, ?_⟩
    · simpa [runTwoClaims] using hA.2
    · simp [runTwoClaims, hB]
    · simp [runTwoClaims, hB, hmiss]

/-- C8 witness: the two orders of a race on a registered name, at a
concrete state. -/
theorem c8_witness :
    (((runTwoClaims ⟨[("a.zip", "/tmp/x")], [("/tmp/x", [])]⟩ "a.zip"
          ⟨false⟩ ⟨false⟩ true).1.1 ≠ .notFound ∧
       (runTwoClaims ⟨[("a.zip", "/tmp/x")], [("/tmp/x", [])]⟩ "a.zip"
          ⟨false⟩ ⟨false⟩ true).1.2 = .notFound) ∨
      ((runTwoClaims ⟨[("a.zip", "/tmp/x")], [("/tmp/x", [])]⟩ "a.zip"
          ⟨false⟩ ⟨false⟩ true).1.1 = .notFound ∧
       (runTwoClaims ⟨[("a.zip", "/tmp/x")], [("/tmp/x", [])]⟩ "a.zip"
          ⟨false⟩ ⟨false⟩ true).1.2 ≠ .notFound))
     ∧ lookupA ((runTwoClaims ⟨[("a.zip", "/tmp/x")], [("/tmp/x", [])]⟩ "a.zip"
          ⟨false⟩ ⟨false⟩ true).2).tempFileStore "a.zip" = none :=
  c8_claim_linearizable ⟨[("a.zip", "/tmp/x")], [("/tmp/x", [])]⟩ "a.zip"
    "/tmp/x" ⟨false⟩ ⟨false⟩ true (by rfl)

/-- C5: a build of N entries that stages successfully produces an archive
with exactly N members, written strictly in input order, each named by its
entry's display name with no path normalization and with content
byte-for-byte equal to the input (`src/main.go` lines 122-157). -/
theorem c5_archive_content (st : ServerState) (files : List UploadFile)
    (env : UploadEnv)
    (hne : files ≠ [])
    (hsz : sumSizes files ≤ sizeLimit)
    (hct : env.createTempFails = false)
    (hcl : env.closeFails = false)
    (hsk : env.seekFails = false)
    (hok : ∀ f ∈ files,
      f.openFails = false ∧ f.createFails = false ∧ f.copyFails = false) :
    (handleFileUpload st files env).1 = .success (genZipFilename files env.now)
    ∧ lookupA ((handleFileUpload st files env).2).fs env.tempPath =
        some (files.map fun f => (f.filename, f.content))
    ∧ (files.map fun f => (f.filename, f.content)).length = files.length := by
  rw [upload_success_eq st files env hne (by omega) hct hcl hsk hok]
  exact ⟨rfl, lookupA_mapInsert_self _ _ _, by simp⟩

/-- C5 witness: the spec §8 scenario — `a.txt` with `hello` and `b.txt`
with `world` stage into a two-member archive with both inputs intact. -/
theorem c5_witness :
    (handleFileUpload ⟨[], []⟩
        [⟨"a.txt", 5, [104, 101, 108, 108, 111], false, false, false⟩,
         ⟨"b.txt", 5, [119, 111, 114, 108, 100], false, false, false⟩]
        ⟨false, false, false, "/tmp/t", ⟨2025, 3, 4, 5, 6, 7⟩⟩).1 =
      .success (genZipFilename
        [⟨"a.txt", 5, [104, 101, 108, 108, 111], false, false, false⟩,
         ⟨"b.txt", 5, [119, 111, 114, 108, 100], false, false, false⟩]
        ⟨2025, 3, 4, 5, 6, 7⟩)
    ∧ lookupA ((handleFileUpload ⟨[], []⟩
        [⟨"a.txt", 5, [104, 101, 108, 108, 111], false, false, false⟩,
         ⟨"b.txt", 5, [119, 111, 114, 108, 100], false, false, false⟩]
        ⟨false, false, false, "/tmp/t", ⟨2025, 3, 4, 5, 6, 7⟩⟩).2).fs "/tmp/t" =
      some [("a.txt", [104, 101, 108, 108, 111]),
            ("b.txt", [119, 111, 114, 108, 100])]
    ∧ ([("a.txt", [104, 101, 108, 108, 111]),
        ("b.txt", [119, 111, 114, 108, 100])] : ZipData).length = 2 := by
  have h := c5_archive_content ⟨[], []⟩
    [⟨"a.txt", 5, [104, 101, 108, 108, 111], false, false, false⟩,
     ⟨"b.txt", 5, [119, 111, 114, 108, 100], false, false, false⟩]
    ⟨false, false, false, "/tmp/t", ⟨2025, 3, 4, 5, 6, 7⟩⟩
    (by simp) (by decide) rfl rfl rfl (by decide)
  exact ⟨h.1, h.2.1, rfl⟩

/-- C9: a successful build's published name is the single file's display
name with its final extension stripped (the literal `archive` for several
files), an underscore, the current time as zero-padded `YYYYMMDD_HHMMSS`,
and `.zip` (`src/main.go` lines 172-182). -/
theorem c9_name_derivation (st : ServerState) (f : UploadFile)
    (rest : List UploadFile) (env : UploadEnv) (name : String)
    (h : (handleFileUpload st (f :: rest) env).1 = .success name) :
    name = (if rest = [] then stripLastExt f.filename else "archive") ++ "_" ++
      (pad4 env.now.year ++ pad2 env.now.month ++ pad2 env.now.day ++ "_" ++
       pad2 env.now.hour ++ pad2 env.now.minute ++ pad2 env.now.second) ++
      ".zip" := by
  have h1 := (upload_success_name st (f :: rest) env name h).1
  cases rest with
  | nil => simpa [genZipFilename, formatTimestamp] using h1
  | cons g gs => simpa [genZipFilename, formatTimestamp] using h1

/-- C9 witness: one file `report.pdf` at 2025-06-07 08:09:10 publishes as
`report_20250607_080910.zip`. -/
theorem c9_witness :
    "report_20250607_080910.zip" =
      (if ([] : List UploadFile) = [] then stripLastExt "report.pdf"
       else "archive") ++ "_" ++
      (pad4 2025 ++ pad2 6 ++ pad2 7 ++ "_" ++ pad2 8 ++ pad2 9 ++ pad2 10) ++
      ".zip" :=
  c9_name_derivation ⟨[], []⟩ ⟨"report.pdf", 3, [1], false, false, false⟩ []
    ⟨false, false, false, "/tmp/r", ⟨2025, 6, 7, 8, 9, 10⟩⟩
    "report_20250607_080910.zip" (by decide)

/-- C1 counterexample: a registered name whose open fails after the claim
removed the record. The claim says physical deletion is still attempted,
so the storage object should be gone; in the code the cleanup `defer`
(`src/main.go` lines 241-245) is only registered after a successful
`os.Open`, so the caller gets the storage error, the record is gone from
the registry, but the file is still on disk. -/
theorem c1_counterexample :
    (handleDownload ⟨[("a.zip", "/tmp/x")], [("/tmp/x", [("m", [1])])]⟩
        "a.zip" ⟨true⟩).1 = .storageError
    ∧ lookupA ((handleDownload ⟨[("a.zip", "/tmp/x")], [("/tmp/x", [("m", [1])])]⟩
        "a.zip" ⟨true⟩).2).tempFileStore "a.zip" = none
    ∧ lookupA ((handleDownload ⟨[("a.zip", "/tmp/x")], [("/tmp/x", [("m", [1])])]⟩
        "a.zip" ⟨true⟩).2).fs "/tmp/x" = some [("m", [1])] := by
  exact ⟨rfl, rfl, rfl⟩

/-- C1 (amended): once a claim removes a name's record, deletion of the
physical object happens exactly on the successful-open path — after the
stream is drained the file no longer exists — while on open failure the
caller is reported a storage error but deletion is NOT attempted and the
filesystem is left unchanged (`src/main.go` lines 234-245). -/
theorem c1_deletion_follows_open (st : ServerState) (name p : String)
    (env : DownloadEnv) (h : lookupA st.tempFileStore name = some p) :
    ((lookupA st.fs p = none ∨ env.openFails = true) →
      (handleDownload st name env).1 = .storageError ∧
      ((handleDownload st name env).2).fs = st.fs)
    ∧ (∀ c, lookupA st.fs p = some c → env.openFails = false →
      handleDownload st name env =
        (.served c, ⟨mapErase st.tempFileStore name, mapErase st.fs p⟩) ∧
      lookupA (mapErase st.fs p) p = none) := by
  constructor
  · rintro (hfs | hop)
    · simp [handleDownload, h, hfs]
    · rcases h2 : lookupA st.fs p with _ | c
      · simp [handleDownload, h, h2]
      · simp [handleDownload, h, h2, hop]
  · intro c hc hop
    exact ⟨by simp [handleDownload, h, hc, hop], lookupA_mapErase_self _ _⟩

/-- C1 witness: both branches at a concrete state — open failure leaves
the file in place; a drained successful claim deletes it. -/
theorem c1_amended_witness :
    ((handleDownload ⟨[("a.zip", "/tmp/x")], [("/tmp/x", [("m", [1])])]⟩
        "a.zip" ⟨true⟩).1 = .storageError ∧
     ((handleDownload ⟨[("a.zip", "/tmp/x")], [("/tmp/x", [("m", [1])])]⟩
        "a.zip" ⟨true⟩).2).fs = [("/tmp/x", [("m", [1])])])
    ∧ (handleDownload ⟨[("a.zip", "/tmp/x")], [("/tmp/x", [("m", [1])])]⟩
        "a.zip" ⟨false⟩ =
        (.served [("m", [1])],
         ⟨mapErase [("a.zip", "/tmp/x")] "a.zip",
          mapErase [("/tmp/x", [("m", [1])])] "/tmp/x"⟩) ∧
       lookupA (mapErase [("/tmp/x", [("m", [1])])] "/tmp/x") "/tmp/x" = none) :=
  ⟨(c1_deletion_follows_open ⟨[("a.zip", "/tmp/x")], [("/tmp/x", [("m", [1])])]⟩
      "a.zip" "/tmp/x" ⟨true⟩ (by rfl)).1 (Or.inr rfl),
   (c1_deletion_follows_open ⟨[("a.zip", "/tmp/x")], [("/tmp/x", [("m", [1])])]⟩
      "a.zip" "/tmp/x" ⟨false⟩ (by rfl)).2 [("m", [1])] rfl rfl⟩

/-- A single entry whose declared size is zero but whose actual content is
one byte over the 100 MB ceiling — declared sizes are advisory transport
hints, so the pre-check passes. -/
def oversizedEntry : UploadFile :=
  ⟨"big.bin", 0, List.replicate (sizeLimit + 1) 0, false, false, false⟩

/-- Failure-free build environment used with `oversizedEntry`. -/
def bigEnv : UploadEnv := ⟨false, false, false, "/tmp/big", ⟨2025, 1, 1, 12, 0, 0⟩⟩

/-- C2 counterexample: an entry whose declared size (0) passes the
pre-check but whose actual bytes exceed the 100 MB limit. The claim says
the build must abort mid-archive with `CapacityExceeded`; the code never
tracks bytes actually copied (`src/main.go` lines 148-154 only forward
`io.Copy` errors), so the build completes successfully. -/
theorem c2_counterexample :
    sumSizes [oversizedEntry] ≤ sizeLimit
    ∧ oversizedEntry.content.length > sizeLimit
    ∧ (handleFileUpload ⟨[], []⟩ [oversizedEntry] bigEnv).1 =
        .success "big_20250101_120000.zip" := by
  refine ⟨by decide, by simp [oversizedEntry], ?_⟩
  rw [upload_success_eq ⟨[], []⟩ [oversizedEntry] bigEnv (by simp)
      (by decide) rfl rfl rfl (by decide)]
  rfl

/-- C2 (amended): the only capacity enforcement is the declared-size
pre-check; actual bytes copied are never compared with the limit, so a
build whose declared sizes pass stages successfully — never failing with
`CapacityExceeded` — whatever the entries' actual byte counts are
(`src/main.go` lines 103-111 and 125-157). -/
theorem c2_no_running_total_check (st : ServerState) (files : List UploadFile)
    (env : UploadEnv)
    (hne : files ≠ [])
    (hsz : sumSizes files ≤ sizeLimit)
    (hct : env.createTempFails = false)
    (hcl : env.closeFails = false)
    (hsk : env.seekFails = false)
    (hok : ∀ f ∈ files,
      f.openFails = false ∧ f.createFails = false ∧ f.copyFails = false) :
    (handleFileUpload st files env).1 = .success (genZipFilename files env.now)
    ∧ (handleFileUpload st files env).1 ≠ .capacityExceeded := by
  rw [upload_success_eq st files env hne (by omega) hct hcl hsk hok]
  exact ⟨rfl, by simp⟩

/-- C2 witness: the over-limit-content entry stages successfully and is
not rejected for capacity. -/
theorem c2_amended_witness :
    (handleFileUpload ⟨[], []⟩ [oversizedEntry] bigEnv).1 =
      .success (genZipFilename [oversizedEntry] bigEnv.now)
    ∧ (handleFileUpload ⟨[], []⟩ [oversizedEntry] bigEnv).1 ≠
      .capacityExceeded :=
  c2_no_running_total_check ⟨[], []⟩ [oversizedEntry] bigEnv (by simp)
    (by decide) rfl rfl rfl (by decide)

/-- C3 counterexample: a build whose only entry fails to open. The claim
says the partially-written scratch zip is deleted before the build
returns; the code closes the zip writer but never calls `os.Remove` on
the temp file (`src/main.go` lines 129-135), so the error is reported, no
record is published, and the scratch container is still on disk. -/
theorem c3_counterexample :
    (handleFileUpload ⟨[], []⟩ [⟨"f.txt", 3, [1, 2, 3], true, false, false⟩]
        ⟨false, false, false, "/tmp/t", ⟨2025, 1, 1, 0, 0, 0⟩⟩).1 =
      .entryOpenError "f.txt"
    ∧ lookupA ((handleFileUpload ⟨[], []⟩
        [⟨"f.txt", 3, [1, 2, 3], true, false, false⟩]
        ⟨false, false, false, "/tmp/t", ⟨2025, 1, 1, 0, 0, 0⟩⟩).2).fs "/tmp/t" =
      some []
    ∧ ((handleFileUpload ⟨[], []⟩ [⟨"f.txt", 3, [1, 2, 3], true, false, false⟩]
        ⟨false, false, false, "/tmp/t", ⟨2025, 1, 1, 0, 0, 0⟩⟩).2).tempFileStore =
      [] := by
  exact ⟨rfl, rfl, rfl⟩

/-- C3 (amended): on any I/O failure during the build (entry open,
zip-entry creation, copy, or finalize) an error is reported to the caller
and no registry record is published, but the partially-written scratch
container is NOT deleted: it remains on disk with the members written so
far (`src/main.go` lines 113-163 have no `os.Remove` on any error path). -/
theorem c3_io_error_keeps_scratch (st : ServerState) (files : List UploadFile)
    (env : UploadEnv)
    (h : isBuildIOError (handleFileUpload st files env).1 = true) :
    ((handleFileUpload st files env).2).tempFileStore = st.tempFileStore
    ∧ ∃ d, lookupA ((handleFileUpload st files env).2).fs env.tempPath =
        some d := by
  unfold handleFileUpload at h ⊢
  split at h
  next => simp [isBuildIOError] at h
  next hlen =>
  split at h
  next => simp [isBuildIOError] at h
  next hsz =>
  split at h
  next => simp [isBuildIOError] at h
  next hct =>
  split at h
  next e partialMembers heq =>
    simp only [hlen, hsz, hct, heq, if_false]
    exact ⟨rfl, partialMembers, lookupA_mapInsert_self _ _ _⟩
  next members heq =>
  split at h
  next hcl =>
    simp only [hlen, hsz, hct, heq, hcl, if_false, if_true]
    exact ⟨rfl, members, lookupA_mapInsert_self _ _ _⟩
  next hcl =>
  split at h
  next => simp [isBuildIOError] at h
  next => simp [isBuildIOError] at h

/-- C3 witness: the open-failure build at a concrete input — record
unpublished, scratch container still present. -/
theorem c3_amended_witness :
    ((handleFileUpload ⟨[], []⟩ [⟨"f.txt", 3, [1, 2, 3], true, false, false⟩]
        ⟨false, false, false, "/tmp/t", ⟨2025, 1, 1, 0, 0, 0⟩⟩).2).tempFileStore =
      []
    ∧ ∃ d, lookupA ((handleFileUpload ⟨[], []⟩
        [⟨"f.txt", 3, [1, 2, 3], true, false, false⟩]
        ⟨false, false, false, "/tmp/t", ⟨2025, 1, 1, 0, 0, 0⟩⟩).2).fs "/tmp/t" =
      some d :=
  c3_io_error_keeps_scratch ⟨[], []⟩
    [⟨"f.txt", 3, [1, 2, 3], true, false, false⟩]
    ⟨false, false, false, "/tmp/t", ⟨2025, 1, 1, 0, 0, 0⟩⟩ (by rfl)

/-- A registry that already holds the name a fresh single-file build of
`doc.txt` at 2025-01-01 12:00:00 will derive. -/
def preState : ServerState :=
  ⟨[("doc_20250101_120000.zip", "/tmp/old")], [("/tmp/old", [("x", [9])])]⟩

/-- The colliding upload: same base name, same second. -/
def dupFile : UploadFile := ⟨"doc.txt", 5, [104], false, false, false⟩

/-- Environment for the colliding upload. -/
def dupEnv : UploadEnv := ⟨false, false, false, "/tmp/new", ⟨2025, 1, 1, 12, 0, 0⟩⟩

/-- C4 counterexample: the derived name already maps to `/tmp/old` in the
registry, yet the build publishes it anyway and the map assignment at
`src/main.go` line 187 silently rebinds it to `/tmp/new` — no collision
check, no fresh candidate, and the old record is overwritten. -/
theorem c4_counterexample :
    lookupA preState.tempFileStore "doc_20250101_120000.zip" = some "/tmp/old"
    ∧ (handleFileUpload preState [dupFile] dupEnv).1 =
        .success "doc_20250101_120000.zip"
    ∧ lookupA ((handleFileUpload preState [dupFile] dupEnv).2).tempFileStore
        "doc_20250101_120000.zip" = some "/tmp/new" := by
  exact ⟨rfl, rfl, rfl⟩

/-- C4 (amended): the published name is a pure function of the file count,
the single file's base name and the current second, with no collision
check against the registry: publishing binds the derived name to the new
scratch path unconditionally, silently overwriting any record already
registered under that name, so names can be reused while the process is
alive (`src/main.go` lines 172-188). -/
theorem c4_publish_overwrites (st : ServerState) (files : List UploadFile)
    (env : UploadEnv) (name : String)
    (h : (handleFileUpload st files env).1 = .success name) :
    name = genZipFilename files env.now
    ∧ lookupA ((handleFileUpload st files env).2).tempFileStore name =
        some env.tempPath :=
  upload_success_name st files env name h

/-- C4 witness: the colliding publish rebinds the already-registered name
to the new path. -/
theorem c4_amended_witness :
    "doc_20250101_120000.zip" = genZipFilename [dupFile] dupEnv.now
    ∧ lookupA ((handleFileUpload preState [dupFile] dupEnv).2).tempFileStore
        "doc_20250101_120000.zip" = some "/tmp/new" :=
  c4_publish_overwrites preState [dupFile] dupEnv "doc_20250101_120000.zip"
    (by rfl)

end BulkDownload
